import Mathlib

/-!
Verification of the UDP event-export pipeline of `gr3chk/tetragon`
(`pkg/encoder/udp_encoder.go`, `pkg/exporter/udp_exporter.go`,
`pkg/exporter/metadata_event.go` and the optimized exporter revision
shipped alongside them).

The embedding is shallow: byte buffers are `List Nat`, the outcome of
external calls (protojson marshalling, `connPool.Get`, socket creation,
`WriteToUDP`, `os.Hostname`, `json.Marshal`) is passed in explicitly as
call parameters, and the mutable fields of the Go structs become explicit
state records threaded through each operation.
-/

namespace Tetragon

/-- Byte buffers are lists of bytes (each `< 256` in practice; the size
and suffix properties proved below do not depend on the bound). -/
abbrev Bytes := List Nat

/-- The newline byte `'\n'` appended by the encoder. -/
def newline : Nat := 10

/-- `MaxUDPSize` from `pkg/encoder/udp_encoder.go`: the maximum size of a
single UDP packet (65535 - 20 IP header - 8 UDP header). -/
def MaxUDPSize : Nat := 65507

/-! ## Encoder data path (`pkg/encoder/udp_encoder.go`) -/

/-- The value passed to `Encode(v interface{})`: either a
`*tetragon.GetEventsResponse` together with the outcome of
`u.jsonOpts.Marshal(event)` (`none` when protojson errors), or a value of
any other dynamic type (which fails the type assertion). -/
inductive EncPayload where
  | eventsResponse (marshal : Option Bytes)
  | other
deriving DecidableEq

/-- Errors surfaced by `Encode` / `Write`. -/
inductive EncodeError where
  | closedError       -- "UDP encoder is closed"
  | invalidEvent      -- ErrInvalidEvent
  | marshalError      -- protojson marshalling failed
  | socketCreateError -- pool miss and createUnboundUDPSocket failed
  | writeError        -- WriteToUDP returned an error
deriving DecidableEq

/-- Outcome of `u.connPool.Get()` for one call: a pooled socket (non-nil),
or nil, in which case the fallback `createUnboundUDPSocket` either yields
a fresh socket or fails.  Sockets are identified by `Nat` handles. -/
inductive PoolGet where
  | hit (sock : Nat)
  | newOk (sock : Nat)
  | newFail
deriving DecidableEq

/-- The external-world outcome of one transmission attempt. -/
structure NetEnv where
  poolGet : PoolGet
  writeOk : Bool
deriving DecidableEq

/-- Observable side effects of one `Encode` / `Write` call. -/
structure EncodeEffect where
  /-- the buffer handed to `WriteToUDP`, when the call reaches it -/
  transmitted : Option Bytes
  /-- the socket put back by `defer u.connPool.Put(conn)`, if any -/
  pooledReleased : Option Nat
  /-- the fallback socket closed by `defer conn.Close()`, if any -/
  fallbackClosed : Option Nat
  /-- whether `u.connPool.Get()` was called at all -/
  poolTouched : Bool
deriving DecidableEq

/-- The effect of a call that returns before touching the socket pool. -/
def noEffect : EncodeEffect :=
  { transmitted := none, pooledReleased := none,
    fallbackClosed := none, poolTouched := true }

/-- Serialization step of `Encode`: append `'\n'`; if the result exceeds
`MaxUDPSize`, truncate to `MaxUDPSize-1` bytes and re-append `'\n'`
(lines 132-143 of `udp_encoder.go`). -/
def encodeDatagram (marshalled : Bytes) : Bytes :=
  let data := marshalled ++ [newline]
  if data.length > MaxUDPSize then
    data.take (MaxUDPSize - 1) ++ [newline]
  else
    data

/-- Size-bounding step of `Write`: truncate to the first `MaxUDPSize`
bytes (`p = p[:MaxUDPSize]`, line 200 of `udp_encoder.go`); no newline is
appended or re-appended on this path. -/
def writeDatagram (p : Bytes) : Bytes :=
  if p.length > MaxUDPSize then p.take MaxUDPSize else p

/-- Shared transmission tail of `Encode` and `Write`: get a socket from
the pool (or construct a fallback one), `WriteToUDP` the buffer, and
release the pooled socket by a deferred `Put` that runs whether or not
the write errored. -/
def transmit (data : Bytes) (env : NetEnv) : Except EncodeError Unit × EncodeEffect :=
  match env.poolGet with
  | .newFail =>
      (Except.error .socketCreateError,
       { transmitted := none, pooledReleased := none,
         fallbackClosed := none, poolTouched := true })
  | .newOk s =>
      ((if env.writeOk then Except.ok () else Except.error .writeError),
       { transmitted := some data, pooledReleased := none,
         fallbackClosed := some s, poolTouched := true })
  | .hit s =>
      ((if env.writeOk then Except.ok () else Except.error .writeError),
       { transmitted := some data, pooledReleased := some s,
         fallbackClosed := none, poolTouched := true })

/-- `Encode` (lines 115-174 of `udp_encoder.go`): closed check first
(atomic load), then the `*tetragon.GetEventsResponse` type assertion,
then marshalling, newline, truncation, transmission. -/
def encode (closed : Bool) (p : EncPayload) (env : NetEnv) :
    Except EncodeError Unit × EncodeEffect :=
  if closed then
    (Except.error .closedError, { noEffect with poolTouched := false })
  else
    match p with
    | .other => (Except.error .invalidEvent, { noEffect with poolTouched := false })
    | .eventsResponse none =>
        (Except.error .marshalError, { noEffect with poolTouched := false })
    | .eventsResponse (some json) =>
        transmit (encodeDatagram json) env

/-- `Write` (lines 190-222 of `udp_encoder.go`): closed check, size
bounding, transmission; returns the byte count reported by `WriteToUDP`
(the full buffer length on success). -/
def write (closed : Bool) (p : Bytes) (env : NetEnv) :
    Except EncodeError Nat × EncodeEffect :=
  if closed then
    (Except.error .closedError, { noEffect with poolTouched := false })
  else
    let data := writeDatagram p
    match transmit data env with
    | (Except.ok (), eff) => (Except.ok data.length, eff)
    | (Except.error e, eff) => (Except.error e, eff)

/-- `Close` on the encoder (lines 177-180): store `closed := 1`, always
return `nil`.  The `Bool` is the encoder's closed flag. -/
def encClose (_closed : Bool) : Bool × Option EncodeError :=
  (true, none)

/-- A buffer ends with the newline byte. -/
def endsWithNewline (l : Bytes) : Prop := l.getLast? = some newline

/-- The protojson options fixed by `NewUDPEncoder`. -/
structure MarshalOptions where
  useProtoNames : Bool
deriving DecidableEq

/-- `jsonOpts` as set in `NewUDPEncoder` (lines 51-53 of
`udp_encoder.go`): `UseProtoNames: true`, so field names are emitted
verbatim in snake_case rather than re-cased. -/
def encoderJsonOpts : MarshalOptions := { useProtoNames := true }

end Tetragon

namespace Tetragon

/-! ## C1: oversized `Encode` truncation -/

theorem encodeDatagram_oversize (json : Bytes)
    (h : (json ++ [newline]).length > MaxUDPSize) :
    (encodeDatagram json).length = MaxUDPSize ∧
    endsWithNewline (encodeDatagram json) ∧
    (encodeDatagram json).length < (json ++ [newline]).length := by
  have hj : json.length + 1 > MaxUDPSize := by
    simpa using h
  unfold encodeDatagram
  simp only [h, if_pos]
  refine ⟨?_, ?_, ?_⟩
  · rw [List.length_append, List.length_take, List.length_append]
    simp only [List.length_singleton]
    unfold MaxUDPSize at hj ⊢
    omega
  · unfold endsWithNewline
    simp
  · rw [List.length_append, List.length_take, List.length_append]
    simp only [List.length_singleton]
    unfold MaxUDPSize at hj ⊢
    omega

/-- C1: For every event whose JSON serialization with trailing newline
exceeds `MaxUDPSize` (65,507 bytes), the buffer handed to `WriteToUDP` by
`Encode` is exactly 65,507 bytes long, ends with a newline byte, and is
strictly shorter than the untruncated serialization; moreover the
transmitted datagram is exactly `encodeDatagram json`, i.e. the buffer
truncated to `MaxUDPSize-1` bytes with the newline re-appended. -/
theorem C1_encode_truncates_oversized (json : Bytes) (env : NetEnv)
    (h : (json ++ [newline]).length > MaxUDPSize)
    (hno : env.poolGet ≠ PoolGet.newFail) :
    (encode false (.eventsResponse (some json)) env).2.transmitted
        = some (encodeDatagram json) ∧
    (encodeDatagram json).length = MaxUDPSize ∧
    endsWithNewline (encodeDatagram json) ∧
    (encodeDatagram json).length < (json ++ [newline]).length ∧
    encodeDatagram json = (json ++ [newline]).take (MaxUDPSize - 1) ++ [newline] := by
  refine ⟨?_, (encodeDatagram_oversize json h).1,
    (encodeDatagram_oversize json h).2.1, (encodeDatagram_oversize json h).2.2, ?_⟩
  · unfold encode transmit
    cases hpg : env.poolGet with
    | newFail => exact absurd hpg hno
    | newOk s => simp [hpg]
    | hit s => simp [hpg]
  · unfold encodeDatagram
    simp only [h, if_pos]

/-- C1 witness: a 65,600-byte serialization (before the newline) is
oversized, and the theorem applies to it. -/
theorem C1_witness :
    ((List.replicate 65600 65 ++ [newline]).length > MaxUDPSize) ∧
    ((encode false (.eventsResponse (some (List.replicate 65600 65)))
        { poolGet := .hit 0, writeOk := true }).2.transmitted
      = some (encodeDatagram (List.replicate 65600 65)) ∧
     (encodeDatagram (List.replicate 65600 65)).length = MaxUDPSize ∧
     endsWithNewline (encodeDatagram (List.replicate 65600 65)) ∧
     (encodeDatagram (List.replicate 65600 65)).length
        < (List.replicate 65600 65 ++ [newline]).length ∧
     encodeDatagram (List.replicate 65600 65)
        = (List.replicate 65600 65 ++ [newline]).take (MaxUDPSize - 1) ++ [newline]) := by
  have h : (List.replicate 65600 65 ++ [newline]).length > MaxUDPSize := by
    rw [List.length_append, List.length_replicate]
    norm_num [MaxUDPSize]
  exact ⟨h, C1_encode_truncates_oversized (List.replicate 65600 65)
    { poolGet := .hit 0, writeOk := true } h (by simp)⟩

end Tetragon

namespace Tetragon

/-! ## C2: pool release on write error -/

/-- C2 counterexample: `Encode` on an open encoder with a pooled socket
(handle 7) whose `WriteToUDP` errors returns the write error, yet the
failing socket IS put back into the pool by the deferred
`u.connPool.Put(conn)` — refuting "the failing socket is discarded and is
never returned to the pool". -/
theorem C2_counterexample :
    (encode false (.eventsResponse (some [65]))
        { poolGet := .hit 7, writeOk := false }).1
      = Except.error EncodeError.writeError ∧
    (encode false (.eventsResponse (some [65]))
        { poolGet := .hit 7, writeOk := false }).2.pooledReleased
      = some 7 ∧
    (write false [65] { poolGet := .hit 7, writeOk := false }).1
      = Except.error EncodeError.writeError ∧
    (write false [65] { poolGet := .hit 7, writeOk := false }).2.pooledReleased
      = some 7 := by
  refine ⟨?_, ?_, ?_, ?_⟩ <;> rfl

/-- C2 (amended): a socket obtained from the pool by `Encode` or `Write`
is released back to the pool unconditionally, by a deferred
`connPool.Put` that runs whether or not the datagram write errored; only
a fallback socket constructed on pool miss is closed and never enters the
pool. -/
theorem C2_pooled_socket_always_released (json p : Bytes) (env : NetEnv) (s : Nat)
    (h : env.poolGet = PoolGet.hit s) :
    (encode false (.eventsResponse (some json)) env).2.pooledReleased = some s ∧
    (write false p env).2.pooledReleased = some s ∧
    (∀ env' s', env'.poolGet = PoolGet.newOk s' →
      (encode false (.eventsResponse (some json)) env').2.pooledReleased = none ∧
      (encode false (.eventsResponse (some json)) env').2.fallbackClosed = some s') := by
  obtain ⟨pg, wo⟩ := env
  simp only at h
  subst h
  refine ⟨?_, ?_, ?_⟩
  · cases wo <;> rfl
  · cases wo <;> rfl
  · intro env' s' h'
    obtain ⟨pg', wo'⟩ := env'
    simp only at h'
    subst h'
    cases wo' <;> exact ⟨rfl, rfl⟩

/-- C2 amended-claim witness at socket handle 3, write erroring. -/
theorem C2_witness :
    (NetEnv.mk (.hit 3) false).poolGet = PoolGet.hit 3 ∧
    ((encode false (.eventsResponse (some [65])) (NetEnv.mk (.hit 3) false)).2.pooledReleased
        = some 3 ∧
     (write false [65] (NetEnv.mk (.hit 3) false)).2.pooledReleased = some 3 ∧
     (∀ env' s', env'.poolGet = PoolGet.newOk s' →
       (encode false (.eventsResponse (some [65])) env').2.pooledReleased = none ∧
       (encode false (.eventsResponse (some [65])) env').2.fallbackClosed = some s')) :=
  ⟨rfl, C2_pooled_socket_always_released [65] [65] (NetEnv.mk (.hit 3) false) 3 rfl⟩

/-! ## C7: `Write` size bounding -/

/-- C7 counterexample: a 65,508-byte buffer of `'A'` bytes is truncated
by `Write` to its first 65,507 bytes, and the transmitted datagram ends
with byte 65, not with a newline — refuting "the transmitted datagram ...
is terminated by the record-separator (newline) byte". -/
theorem C7_counterexample :
    (write false (List.replicate 65508 65)
        { poolGet := .hit 0, writeOk := true }).2.transmitted
      = some (List.replicate 65507 65) ∧
    ¬ endsWithNewline (List.replicate 65507 65) := by
  constructor
  · have hd : writeDatagram (List.replicate 65508 65) = List.replicate 65507 65 := by
      unfold writeDatagram
      rw [List.length_replicate]
      rw [if_pos (by norm_num [MaxUDPSize])]
      rw [List.take_replicate]
      norm_num [MaxUDPSize]
    unfold write transmit
    simp only [if_neg Bool.false_ne_true, hd]
    rfl
  · unfold endsWithNewline newline
    have : List.replicate 65507 (65 : Nat) = List.replicate 65506 65 ++ [65] := by
      rw [← List.replicate_succ']
    rw [this, List.getLast?_concat]
    simp

/-- C7 (amended): `Write` bounds every transmitted datagram to at most
`MaxUDPSize` bytes by truncating an oversized buffer to its first
`MaxUDPSize` bytes; unlike `Encode`, it appends no newline and does not
re-append one after truncating, so the datagram ends with a newline only
when the corresponding input byte is one. -/
theorem C7_write_size_bounded (p : Bytes) (env : NetEnv)
    (hno : env.poolGet ≠ PoolGet.newFail) :
    (write false p env).2.transmitted = some (writeDatagram p) ∧
    (writeDatagram p).length ≤ MaxUDPSize ∧
    writeDatagram p = p.take MaxUDPSize := by
  have htake : writeDatagram p = p.take MaxUDPSize := by
    unfold writeDatagram
    by_cases hlen : p.length > MaxUDPSize
    · rw [if_pos hlen]
    · rw [if_neg hlen, List.take_of_length_le (by omega)]
  refine ⟨?_, ?_, htake⟩
  · unfold write transmit
    cases hpg : env.poolGet with
    | newFail => exact absurd hpg hno
    | newOk s => cases hw : env.writeOk <;> simp [hpg, hw]
    | hit s => cases hw : env.writeOk <;> simp [hpg, hw]
  · rw [htake, List.length_take]
    omega

/-- C7 amended-claim witness on a three-byte buffer. -/
theorem C7_witness :
    ((NetEnv.mk (.hit 0) true).poolGet ≠ PoolGet.newFail) ∧
    ((write false [65, 66, 10] (NetEnv.mk (.hit 0) true)).2.transmitted
        = some (writeDatagram [65, 66, 10]) ∧
     (writeDatagram [65, 66, 10]).length ≤ MaxUDPSize ∧
     writeDatagram [65, 66, 10] = [65, 66, 10].take MaxUDPSize) :=
  ⟨by decide, C7_write_size_bounded [65, 66, 10] (NetEnv.mk (.hit 0) true) (by decide)⟩

/-! ## C6: `Encode` under the size ceiling -/

/-- C6: for every event whose protojson serialization plus newline is at
most `MaxUDPSize` bytes, `Encode` on an open encoder (with a working
socket) succeeds and the transmitted datagram is exactly the marshalled
JSON followed by one trailing newline; the encoder's marshal options keep
proto field names verbatim (`UseProtoNames: true`). -/
theorem C6_encode_under_ceiling (json : Bytes) (env : NetEnv)
    (hsize : (json ++ [newline]).length ≤ MaxUDPSize)
    (hno : env.poolGet ≠ PoolGet.newFail) (hw : env.writeOk = true) :
    (encode false (.eventsResponse (some json)) env).1 = Except.ok () ∧
    (encode false (.eventsResponse (some json)) env).2.transmitted
        = some (json ++ [newline]) ∧
    encoderJsonOpts.useProtoNames = true := by
  have hd : encodeDatagram json = json ++ [newline] := by
    unfold encodeDatagram
    rw [if_neg (by omega)]
  unfold encode transmit
  cases hpg : env.poolGet with
  | newFail => exact absurd hpg hno
  | newOk s => simp [hpg, hw, hd, encoderJsonOpts]
  | hit s => simp [hpg, hw, hd, encoderJsonOpts]

/-- C6 witness: a one-byte serialization through a pooled socket. -/
theorem C6_witness :
    (([65] ++ [newline]).length ≤ MaxUDPSize) ∧
    ((NetEnv.mk (.hit 0) true).poolGet ≠ PoolGet.newFail) ∧
    ((NetEnv.mk (.hit 0) true).writeOk = true) ∧
    ((encode false (.eventsResponse (some [65])) (NetEnv.mk (.hit 0) true)).1
        = Except.ok () ∧
     (encode false (.eventsResponse (some [65])) (NetEnv.mk (.hit 0) true)).2.transmitted
        = some ([65] ++ [newline]) ∧
     encoderJsonOpts.useProtoNames = true) :=
  ⟨by decide, by decide, rfl,
   C6_encode_under_ceiling [65] (NetEnv.mk (.hit 0) true) (by decide) (by decide) rfl⟩

/-! ## C10: closed check precedes the shape check -/

/-- C10: `Encode` checks the closed flag before the
`*tetragon.GetEventsResponse` type assertion, so a closed encoder returns
`ClosedError` for every payload — never `ErrInvalidEvent` — and does not
touch the pool; `ErrInvalidEvent` is returned exactly when the encoder is
open and the payload is not a `GetEventsResponse`, and on that path
nothing is transmitted and the pool is untouched. -/
theorem C10_closed_check_first (p : EncPayload) (env : NetEnv) :
    (encode true p env).1 = Except.error EncodeError.closedError ∧
    (encode true p env).1 ≠ Except.error EncodeError.invalidEvent ∧
    (encode true p env).2.poolTouched = false ∧
    (∀ q env', (encode false q env').1 = Except.error EncodeError.invalidEvent
        ↔ q = EncPayload.other) ∧
    (encode false EncPayload.other env).2.transmitted = none ∧
    (encode false EncPayload.other env).2.poolTouched = false := by
  refine ⟨rfl, by simp [encode, noEffect], rfl, ?_, rfl, rfl⟩
  intro q env'
  constructor
  · intro h
    cases q with
    | other => rfl
    | eventsResponse m =>
        cases m with
        | none => simp [encode, noEffect] at h
        | some json =>
            unfold encode transmit at h
            cases hpg : env'.poolGet <;> rw [hpg] at h <;>
              cases hw : env'.writeOk <;> simp [hw] at h
  · intro h
    subst h
    rfl

end Tetragon

namespace Tetragon

/-! ## Exporter (`pkg/exporter/udp_exporter.go`) -/

/-- Errors returned by exporter operations. -/
inductive SendError where
  | exporterClosed          -- "UDP exporter is closed"
  | encodeErr (e : EncodeError)
deriving DecidableEq

/-- The mutable state of `UDPExporter` together with the counters it
touches: `closed`, the encoder's closed flag, the rate limiter's `Drop`
invocation count, and the prometheus counters `rateLimitDropped`,
`eventsExportedTotal`, `eventsExportTimestamp`. -/
structure ExpState where
  closed : Bool
  encClosed : Bool
  dropCalls : Nat
  rateLimitDropped : Nat
  eventsExportedTotal : Nat
  eventsExportTimestamp : Int
deriving DecidableEq

/-- Result of one `Send` call. -/
structure SendOutcome where
  state : ExpState
  err : Option SendError
  /-- whether `e.encoder.Encode` was called -/
  encoderInvoked : Bool
  /-- the buffer the encoder handed to `WriteToUDP`, if any -/
  transmitted : Option Bytes
deriving DecidableEq

/-- `Send` (lines 83-105 of `udp_exporter.go`): under the mutex, check
`closed`; then, when a rate limiter is configured and `Allow()` rejects,
call `Drop()`, increment `rateLimitDropped` and return `nil`; otherwise
delegate to `encoder.Encode` and on success increment the export
counters.  `hasLimiter` models `e.rateLimiter != nil`, `allow` the
outcome of `Allow()`, `time` the event's second timestamp. -/
def expSend (s : ExpState) (hasLimiter allow : Bool) (p : EncPayload)
    (env : NetEnv) (time : Int) : SendOutcome :=
  if s.closed then
    { state := s, err := some .exporterClosed, encoderInvoked := false,
      transmitted := none }
  else if hasLimiter && !allow then
    { state := { s with dropCalls := s.dropCalls + 1,
                        rateLimitDropped := s.rateLimitDropped + 1 },
      err := none, encoderInvoked := false, transmitted := none }
  else
    match encode s.encClosed p env with
    | (Except.ok (), eff) =>
        { state := { s with eventsExportedTotal := s.eventsExportedTotal + 1,
                            eventsExportTimestamp := time },
          err := none, encoderInvoked := true, transmitted := eff.transmitted }
    | (Except.error e, eff) =>
        { state := s, err := some (.encodeErr e), encoderInvoked := true,
          transmitted := eff.transmitted }

/-- `Close` on the exporter (lines 108-118): under the mutex, a no-op
returning `nil` when already closed; otherwise set `closed` and delegate
to `encoder.Close()`. -/
def expClose (s : ExpState) : ExpState × Option SendError :=
  if s.closed then (s, none)
  else
    let (ec, e) := encClose s.encClosed
    ({ s with closed := true, encClosed := ec }, e.map SendError.encodeErr)

/-! ## C4: close semantics -/

/-- C4: after `Close()` on the encoder every subsequent `Encode` and
`Write` fails fast with `ClosedError` before touching the socket pool,
and a second encoder `Close()` returns `nil`; the exporter's `Close` is
likewise idempotent (re-close is a no-op returning `nil` and leaves the
state unchanged) and `Send` after `Close` returns the closed error. -/
theorem C4_close_idempotent_fail_fast (b : Bool) (p : EncPayload) (q : Bytes)
    (env : NetEnv) (s : ExpState) (hasLimiter allow : Bool) (time : Int) :
    encClose b = (true, none) ∧
    encClose (encClose b).1 = (true, none) ∧
    (encode (encClose b).1 p env).1 = Except.error EncodeError.closedError ∧
    (encode (encClose b).1 p env).2.poolTouched = false ∧
    (write (encClose b).1 q env).1 = Except.error EncodeError.closedError ∧
    (write (encClose b).1 q env).2.poolTouched = false ∧
    ((expClose s).1).closed = true ∧
    (expClose (expClose s).1).2 = none ∧
    (expClose (expClose s).1).1 = (expClose s).1 ∧
    (expSend (expClose s).1 hasLimiter allow p env time).err
        = some SendError.exporterClosed := by
  have hc : ((expClose s).1).closed = true := by
    unfold expClose encClose
    by_cases h : s.closed
    · simp [h]
    · simp [h]
  have hnoop : ∀ t : ExpState, t.closed = true → expClose t = (t, none) := by
    intro t ht
    unfold expClose
    rw [if_pos ht]
  have hsendclosed : ∀ t : ExpState, t.closed = true →
      (expSend t hasLimiter allow p env time).err = some SendError.exporterClosed := by
    intro t ht
    unfold expSend
    rw [if_pos ht]
  refine ⟨rfl, rfl, rfl, rfl, rfl, rfl, hc, ?_, ?_, hsendclosed _ hc⟩
  · rw [hnoop _ hc]
  · rw [hnoop _ hc]

/-! ## C5: rate-limited drop is silent -/

/-- C5: on an open exporter with a configured rate limiter whose
`Allow()` rejects, `Send` calls `Drop()` exactly once, increments the
drop counter once, returns `nil`, does not invoke the encoder, transmits
nothing, and leaves the export counters untouched; consequently two
back-to-back `Send`s of a marshallable event of which the limiter allows
only the first produce exactly one transmitted datagram and one recorded
drop, with no error from either call. -/
theorem C5_ratelimit_reject_silent (s : ExpState) (json : Bytes) (env : NetEnv)
    (time time' : Int)
    (hopen : s.closed = false) (henc : s.encClosed = false)
    (hno : env.poolGet ≠ PoolGet.newFail) (hw : env.writeOk = true) :
    (expSend s true false (.eventsResponse (some json)) env time).err = none ∧
    (expSend s true false (.eventsResponse (some json)) env time).encoderInvoked
        = false ∧
    (expSend s true false (.eventsResponse (some json)) env time).transmitted
        = none ∧
    (expSend s true false (.eventsResponse (some json)) env time).state.dropCalls
        = s.dropCalls + 1 ∧
    (expSend s true false (.eventsResponse (some json)) env time).state.rateLimitDropped
        = s.rateLimitDropped + 1 ∧
    (expSend s true false (.eventsResponse (some json)) env time).state.eventsExportedTotal
        = s.eventsExportedTotal ∧
    (expSend s true false (.eventsResponse (some json)) env time).state.eventsExportTimestamp
        = s.eventsExportTimestamp ∧
    -- back-to-back pair: first allowed and transmitted, second dropped
    (let first := expSend s true true (.eventsResponse (some json)) env time
     let second := expSend first.state true false (.eventsResponse (some json)) env time'
     first.err = none ∧ second.err = none ∧
     first.transmitted = some (encodeDatagram json) ∧
     second.transmitted = none ∧
     first.state.eventsExportedTotal = s.eventsExportedTotal + 1 ∧
     second.state.eventsExportedTotal = s.eventsExportedTotal + 1 ∧
     second.state.dropCalls = s.dropCalls + 1 ∧
     second.state.rateLimitDropped = s.rateLimitDropped + 1) := by
  have hrej :
      expSend s true false (.eventsResponse (some json)) env time
        = { state := { s with dropCalls := s.dropCalls + 1,
                              rateLimitDropped := s.rateLimitDropped + 1 },
            err := none, encoderInvoked := false, transmitted := none } := by
    unfold expSend
    rw [if_neg (by simp [hopen])]
    rfl
  have hencres : encode s.encClosed (.eventsResponse (some json)) env
      = (Except.ok (), { transmitted := some (encodeDatagram json),
                         pooledReleased := (match env.poolGet with
                            | .hit so => some so | _ => none),
                         fallbackClosed := (match env.poolGet with
                            | .newOk so => some so | _ => none),
                         poolTouched := true }) := by
    rw [henc]
    unfold encode transmit
    cases hpg : env.poolGet with
    | newFail => exact absurd hpg hno
    | newOk so => simp [hw]
    | hit so => simp [hw]
  have hfirst :
      expSend s true true (.eventsResponse (some json)) env time
        = { state := { s with eventsExportedTotal := s.eventsExportedTotal + 1,
                              eventsExportTimestamp := time },
            err := none, encoderInvoked := true,
            transmitted := some (encodeDatagram json) } := by
    unfold expSend
    rw [if_neg (by simp [hopen]), hencres]
    rfl
  refine ⟨?_, ?_, ?_, ?_, ?_, ?_, ?_, ?_⟩
  · rw [hrej]
  · rw [hrej]
  · rw [hrej]
  · rw [hrej]
  · rw [hrej]
  · rw [hrej]
  · rw [hrej]
  · simp only [hfirst]
    have hsecond :
        expSend { s with eventsExportedTotal := s.eventsExportedTotal + 1,
                         eventsExportTimestamp := time }
          true false (.eventsResponse (some json)) env time'
          = { state := { s with eventsExportedTotal := s.eventsExportedTotal + 1,
                                eventsExportTimestamp := time,
                                dropCalls := s.dropCalls + 1,
                                rateLimitDropped := s.rateLimitDropped + 1 },
              err := none, encoderInvoked := false, transmitted := none } := by
      unfold expSend
      rw [if_neg (by simp [hopen])]
      rfl
    rw [hsecond]
    simp

/-- C5 witness: a fresh open exporter, a one-byte serialization, a pooled
socket, rejection behavior and the back-to-back pair. -/
theorem C5_witness :
    ((ExpState.mk false false 0 0 0 0).closed = false) ∧
    ((ExpState.mk false false 0 0 0 0).encClosed = false) ∧
    ((NetEnv.mk (.hit 0) true).poolGet ≠ PoolGet.newFail) ∧
    ((NetEnv.mk (.hit 0) true).writeOk = true) ∧
    ((expSend (ExpState.mk false false 0 0 0 0) true false
        (.eventsResponse (some [47])) (NetEnv.mk (.hit 0) true) 5).err = none ∧
     (expSend (ExpState.mk false false 0 0 0 0) true false
        (.eventsResponse (some [47])) (NetEnv.mk (.hit 0) true) 5).encoderInvoked = false ∧
     (expSend (ExpState.mk false false 0 0 0 0) true false
        (.eventsResponse (some [47])) (NetEnv.mk (.hit 0) true) 5).transmitted = none ∧
     (expSend (ExpState.mk false false 0 0 0 0) true false
        (.eventsResponse (some [47])) (NetEnv.mk (.hit 0) true) 5).state.dropCalls
        = (ExpState.mk false false 0 0 0 0).dropCalls + 1 ∧
     (expSend (ExpState.mk false false 0 0 0 0) true false
        (.eventsResponse (some [47])) (NetEnv.mk (.hit 0) true) 5).state.rateLimitDropped
        = (ExpState.mk false false 0 0 0 0).rateLimitDropped + 1 ∧
     (expSend (ExpState.mk false false 0 0 0 0) true false
        (.eventsResponse (some [47])) (NetEnv.mk (.hit 0) true) 5).state.eventsExportedTotal
        = (ExpState.mk false false 0 0 0 0).eventsExportedTotal ∧
     (expSend (ExpState.mk false false 0 0 0 0) true false
        (.eventsResponse (some [47])) (NetEnv.mk (.hit 0) true) 5).state.eventsExportTimestamp
        = (ExpState.mk false false 0 0 0 0).eventsExportTimestamp ∧
     (let first := expSend (ExpState.mk false false 0 0 0 0) true true
          (.eventsResponse (some [47])) (NetEnv.mk (.hit 0) true) 5
      let second := expSend first.state true false
          (.eventsResponse (some [47])) (NetEnv.mk (.hit 0) true) 6
      first.err = none ∧ second.err = none ∧
      first.transmitted = some (encodeDatagram [47]) ∧
      second.transmitted = none ∧
      first.state.eventsExportedTotal
          = (ExpState.mk false false 0 0 0 0).eventsExportedTotal + 1 ∧
      second.state.eventsExportedTotal
          = (ExpState.mk false false 0 0 0 0).eventsExportedTotal + 1 ∧
      second.state.dropCalls = (ExpState.mk false false 0 0 0 0).dropCalls + 1 ∧
      second.state.rateLimitDropped
          = (ExpState.mk false false 0 0 0 0).rateLimitDropped + 1)) :=
  ⟨rfl, rfl, by decide, rfl,
   C5_ratelimit_reject_silent (ExpState.mk false false 0 0 0 0) [47]
     (NetEnv.mk (.hit 0) true) 5 6 rfl rfl (by decide) rfl⟩

end Tetragon

namespace Tetragon

/-! ## Metadata caching (optimized exporter revision, `initCachedMetadata`
and `SendMetadataEvent` of the revision concatenated into
`pkg/exporter/udp_exporter_test.go`, lines 268-319, documented in
`docs/agent_changelog/METADATA_EXPORT_OPTIMIZATIONS.md`) -/

/-- The metadata-cache fields of the optimized `UDPExporter`:
`metadataOnce` (whether the `sync.Once` has run) and `cachedMetadata`.
`sync.Once.Do` linearizes concurrent first calls, so its guarantee is
modelled by this atomic state machine: exactly one caller runs the body,
every other call observes the resulting state. -/
structure MetaState where
  onceDone : Bool
  cachedMetadata : Option Bytes
deriving DecidableEq

/-- The exporter's metadata cache as constructed by `NewUDPExporter`. -/
def metaInit : MetaState := { onceDone := false, cachedMetadata := none }

/-- `initCachedMetadata(udpDestination, udpBufferSize)`: inside
`metadataOnce.Do`, build the metadata event and serialize it with
`ToJSON`; on success store the bytes in `cachedMetadata`, on failure only
log.  `toJSON` is the outcome of the `NewMetadataEvent` + `ToJSON`
computation the body would perform.  Returns the new state and the number
of metadata computations executed (0 when the Once already ran). -/
def initCachedMetadata (s : MetaState) (toJSON : Option Bytes) : MetaState × Nat :=
  if s.onceDone then (s, 0)
  else
    match toJSON with
    | some b => ({ onceDone := true, cachedMetadata := some b }, 1)
    | none => ({ s with onceDone := true }, 1)

/-- Encoder entry points the exporter can invoke for the metadata
payload. -/
inductive EncOp where
  | encodeOp   -- UDPEncoder.Encode (event-encoding path)
  | writeRawOp -- UDPEncoder.WriteRaw (raw, already-serialized bytes)
deriving DecidableEq

/-- Result of one `SendMetadataEvent` call. -/
structure MetaSendOutcome where
  state : MetaState
  err : Option EncodeError
  /-- the already-serialized buffer handed to the raw write path -/
  sent : Option Bytes
  /-- number of `NewMetadataEvent` + `ToJSON` computations performed -/
  computations : Nat
  /-- the encoder entry points invoked, in order -/
  ops : List EncOp
deriving DecidableEq

/-- `SendMetadataEvent` of the optimized revision: initialize the cache
once; when `cachedMetadata` is non-nil transmit it via
`encoder.WriteRaw`; otherwise fall back to a fresh `NewMetadataEvent` +
`ToJSON` computation (outcome `toJSONfallback`) and transmit the fresh
bytes via `encoder.WriteRaw`.  `writeErr` is the outcome of the
`WriteRaw` call when it is reached. -/
def sendMetadataEvent (s : MetaState) (toJSONinit toJSONfallback : Option Bytes)
    (writeErr : Option EncodeError) : MetaSendOutcome :=
  let r := initCachedMetadata s toJSONinit
  match r.1.cachedMetadata with
  | some b =>
      { state := r.1, err := writeErr, sent := some b,
        computations := r.2, ops := [.writeRawOp] }
  | none =>
      match toJSONfallback with
      | some b =>
          { state := r.1, err := writeErr, sent := some b,
            computations := r.2 + 1, ops := [.writeRawOp] }
      | none =>
          { state := r.1, err := some .marshalError, sent := none,
            computations := r.2 + 1, ops := [] }

/-- One `SendMetadataEvent` call's external outcomes: the `ToJSON` result
inside the Once body, the `ToJSON` result of the fallback path, and the
`WriteRaw` outcome. -/
structure MetaCall where
  toJSONinit : Option Bytes
  toJSONfallback : Option Bytes
  writeErr : Option EncodeError

/-- Run a sequence of `SendMetadataEvent` calls, returning the final
cache state and the total number of metadata computations executed. -/
def runMetaCalls (s : MetaState) : List MetaCall → MetaState × Nat
  | [] => (s, 0)
  | c :: cs =>
      let out := sendMetadataEvent s c.toJSONinit c.toJSONfallback c.writeErr
      let r := runMetaCalls out.state cs
      (r.1, out.computations + r.2)

theorem sendMetadataEvent_cached (b : Bytes) (ti tf : Option Bytes)
    (we : Option EncodeError) :
    sendMetadataEvent { onceDone := true, cachedMetadata := some b } ti tf we
      = { state := { onceDone := true, cachedMetadata := some b },
          err := we, sent := some b, computations := 0,
          ops := [.writeRawOp] } := rfl

theorem runMetaCalls_cached (b : Bytes) (calls : List MetaCall) :
    runMetaCalls { onceDone := true, cachedMetadata := some b } calls
      = ({ onceDone := true, cachedMetadata := some b }, 0) := by
  induction calls with
  | nil => rfl
  | cons c cs ih =>
      unfold runMetaCalls
      rw [sendMetadataEvent_cached]
      simp [ih]

/-- C3: the first successful `SendMetadataEvent` performs exactly one
metadata computation, caches its bytes and transmits them; every
subsequent call — from any caller, the `sync.Once` having linearized the
first-call race — returns the identical cached byte slice with zero
further computations (any whole run from the cached state performs zero
computations); if the Once-body serialization fails, nothing is cached
and every later call performs a full fresh computation. -/
theorem C3_metadata_compute_once (b : Bytes) (ti tf tf' : Option Bytes)
    (we we' : Option EncodeError) (calls : List MetaCall) :
    (sendMetadataEvent metaInit (some b) tf we).computations = 1 ∧
    (sendMetadataEvent metaInit (some b) tf we).state
        = { onceDone := true, cachedMetadata := some b } ∧
    (sendMetadataEvent metaInit (some b) tf we).sent = some b ∧
    (sendMetadataEvent { onceDone := true, cachedMetadata := some b } ti tf' we').sent
        = some b ∧
    (sendMetadataEvent { onceDone := true, cachedMetadata := some b } ti tf' we').computations
        = 0 ∧
    (sendMetadataEvent { onceDone := true, cachedMetadata := some b } ti tf' we').state
        = { onceDone := true, cachedMetadata := some b } ∧
    (runMetaCalls { onceDone := true, cachedMetadata := some b } calls).2 = 0 ∧
    (sendMetadataEvent metaInit none tf we).state.cachedMetadata = none ∧
    (sendMetadataEvent { onceDone := true, cachedMetadata := none } ti tf' we').computations
        = 1 := by
  refine ⟨rfl, rfl, rfl, ?_, ?_, ?_, ?_, ?_, ?_⟩
  · rw [sendMetadataEvent_cached]
  · rw [sendMetadataEvent_cached]
  · rw [sendMetadataEvent_cached]
  · rw [runMetaCalls_cached]
  · cases tf <;> rfl
  · cases tf' <;> rfl

/-! ## Hostname memoization (`getCachedHostname`,
`docs/agent_changelog/METADATA_EXPORT_OPTIMIZATIONS.md` lines 67-83) -/

/-- The package-level `cachedHostname` / `hostnameOnce` pair.  It is a
separate piece of state from `MetaState`: hostname memoization is
independent of the metadata-bytes cache. -/
structure HostState where
  hostnameDone : Bool
  cachedHostname : String
deriving DecidableEq

/-- The zero value of the package-level variables at process start. -/
def hostInit : HostState := { hostnameDone := false, cachedHostname := "" }

/-- `getCachedHostname()`: inside `hostnameOnce.Do`, call `os.Hostname()`
once, caching its result (or `"unknown"` on error); afterwards return the
cached value.  `osHostname` is the outcome of the `os.Hostname()` system
call; the `Nat` counts how many times that system call was invoked. -/
def getCachedHostname (s : HostState) (osHostname : Option String) :
    HostState × String × Nat :=
  if s.hostnameDone then (s, s.cachedHostname, 0)
  else
    match osHostname with
    | some h => ({ hostnameDone := true, cachedHostname := h }, h, 1)
    | none => ({ hostnameDone := true, cachedHostname := "unknown" }, "unknown", 1)

/-- Result of constructing one metadata snapshot. -/
structure SnapshotOutcome where
  state : HostState
  hostname : String
  sysCalls : Nat
deriving DecidableEq

/-- Modelled from the spec: the optimized
`NewMetadataEvent(udpDestination, udpBufferSize)` — whose body is not
under `src/` (only its callers, tests and the changelog are) — resolves
the snapshot's `hostname` field through `getCachedHostname` ("Hostname
resolution specifically is memoized independently and only ever invoked
once for the process lifetime").  Only the hostname-resolution effect is
relevant here; the remaining scalar fields of the snapshot are
independent of this state. -/
def newMetadataEvent (s : HostState) (osHostname : Option String) : SnapshotOutcome :=
  let r := getCachedHostname s osHostname
  { state := r.1, hostname := r.2.1, sysCalls := r.2.2 }

/-- Run a sequence of snapshot constructions, collecting the hostnames
observed and the total number of `os.Hostname()` invocations. -/
def runConstructions (s : HostState) : List (Option String) → HostState × List String × Nat
  | [] => (s, [], 0)
  | o :: os =>
      let out := newMetadataEvent s o
      let r := runConstructions out.state os
      (r.1, out.hostname :: r.2.1, out.sysCalls + r.2.2)

theorem runConstructions_done (h : String) (os : List (Option String)) :
    runConstructions { hostnameDone := true, cachedHostname := h } os
      = ({ hostnameDone := true, cachedHostname := h },
         List.replicate os.length h, 0) := by
  induction os with
  | nil => rfl
  | cons o os ih =>
      unfold runConstructions
      have hstep : newMetadataEvent { hostnameDone := true, cachedHostname := h } o
          = { state := { hostnameDone := true, cachedHostname := h },
              hostname := h, sysCalls := 0 } := rfl
      rw [hstep]
      simp [ih, List.replicate_succ]

/-- C8: hostname resolution is memoized in state
(`hostnameOnce`/`cachedHostname`) separate from the metadata cache and
`os.Hostname()` is invoked at most once across any sequence of snapshot
constructions (exactly zero times once memoized); two sequential
constructions observe the same hostname value. -/
theorem C8_hostname_memoized (o1 o2 : Option String) (h : String)
    (oss : List (Option String)) :
    (runConstructions hostInit oss).2.2 ≤ 1 ∧
    (runConstructions { hostnameDone := true, cachedHostname := h } oss).2.2 = 0 ∧
    (newMetadataEvent (newMetadataEvent hostInit o1).state o2).hostname
        = (newMetadataEvent hostInit o1).hostname := by
  refine ⟨?_, ?_, ?_⟩
  · cases oss with
    | nil => exact Nat.le_refl 0 |>.trans (by omega)
    | cons o os =>
        unfold runConstructions
        cases o with
        | some hh =>
            have hstep : newMetadataEvent hostInit (some hh)
                = { state := { hostnameDone := true, cachedHostname := hh },
                    hostname := hh, sysCalls := 1 } := rfl
            rw [hstep]
            simp [runConstructions_done]
        | none =>
            have hstep : newMetadataEvent hostInit none
                = { state := { hostnameDone := true, cachedHostname := "unknown" },
                    hostname := "unknown", sysCalls := 1 } := rfl
            rw [hstep]
            simp [runConstructions_done]
  · rw [runConstructions_done]
  · cases o1 <;> cases o2 <;> rfl

/-! ## C9: metadata goes through the raw write path -/

/-- C9: `SendMetadataEvent` (optimized revision) never invokes the
encoder's event-encoding path `Encode` for the metadata payload: on every
execution path its encoder-operation trace is either a single raw-bytes
`WriteRaw` call carrying the already-serialized metadata bytes, or empty
(when both serializations fail nothing is transmitted at all). -/
theorem C9_metadata_raw_write_path (s : MetaState) (ti tf : Option Bytes)
    (we : Option EncodeError) :
    EncOp.encodeOp ∉ (sendMetadataEvent s ti tf we).ops ∧
    ((sendMetadataEvent s ti tf we).ops = [EncOp.writeRawOp] ∨
     ((sendMetadataEvent s ti tf we).ops = [] ∧
      (sendMetadataEvent s ti tf we).sent = none)) := by
  obtain ⟨od, cm⟩ := s
  cases od <;> cases cm <;> cases ti <;> cases tf <;>
    simp [sendMetadataEvent, initCachedMetadata]

end Tetragon
